import Mathlib

/-!
Verification of the natural-language specification of `fastapi-sso`
(repository `tomasvotava/fastapi-sso`) against its source code.

The development shallowly embeds the relevant parts of the code:

* `fastapi_sso/pkce.py` — the PKCE helper (`get_code_verifier`,
  `get_pkce_challenge_pair`), together with executable models of the
  library primitives it calls (`base64.urlsafe_b64encode`,
  `hashlib.sha256`, `os.urandom`).  Randomness is modelled by an explicit
  entropy stream `Nat → Nat` whose values are reduced mod 256, exactly the
  bytes `os.urandom` would have produced.
* `fastapi_sso/sso/base.py` — the session-state record of `SSOBase`, the
  constructor, `__aenter__`/`__aexit__`, `get_login_url`,
  `get_login_redirect` and `verify_and_process` (up to the point where it
  delegates to `process_login`; the delegated network exchange is out of
  scope of the claims settled here, so the model returns the delegation
  arguments).
* a small-step interleaving semantics of two concurrent login attempts on
  one adapter instance, with the per-instance `asyncio.Lock` made explicit
  (for the concurrency claim).
-/

/-! ## Base64 (url-safe alphabet), model of `base64.urlsafe_b64encode`

Bytes are `Nat`s below 256.  `b64EncodeChunks` produces the padded
encoding (with `=` padding characters) as a list of characters;
`replace("=", "")` from the Python source is modelled by filtering the
padding characters out.
-/

def b64UrlAlphabet : List Char :=
  [ 'A', 'B', 'C', 'D', 'E', 'F', 'G', 'H', 'I', 'J', 'K', 'L', 'M',
    'N', 'O', 'P', 'Q', 'R', 'S', 'T', 'U', 'V', 'W', 'X', 'Y', 'Z',
    'a', 'b', 'c', 'd', 'e', 'f', 'g', 'h', 'i', 'j', 'k', 'l', 'm',
    'n', 'o', 'p', 'q', 'r', 's', 't', 'u', 'v', 'w', 'x', 'y', 'z',
    '0', '1', '2', '3', '4', '5', '6', '7', '8', '9', '-', '_' ]

def alphabetChar (i : Nat) : Char :=
  b64UrlAlphabet.getD (i % 64) 'A'

def b64EncodeChunks : List Nat → List Char
  | [] => []
  | [b1] =>
      [alphabetChar (b1 / 4), alphabetChar (b1 % 4 * 16), '=', '=']
  | [b1, b2] =>
      [alphabetChar (b1 / 4), alphabetChar (b1 % 4 * 16 + b2 / 16),
       alphabetChar (b2 % 16 * 4), '=']
  | b1 :: b2 :: b3 :: rest =>
      alphabetChar (b1 / 4) :: alphabetChar (b1 % 4 * 16 + b2 / 16) ::
      alphabetChar (b2 % 16 * 4 + b3 / 64) :: alphabetChar (b3 % 64) ::
      b64EncodeChunks rest

def b64UrlNoPad (bs : List Nat) : List Char :=
  (b64EncodeChunks bs).filter (fun ch => !(ch == '='))

/-! ## SHA-256, model of `hashlib.sha256(...).digest()`

Full executable SHA-256 over byte lists, words represented as `Nat`
reduced mod `2 ^ 32`.
-/

def w32 (n : Nat) : Nat := n % 4294967296

def rotr32 (x n : Nat) : Nat := w32 ((x >>> n) ||| (x <<< (32 - n)))

def w32Not (x : Nat) : Nat := 4294967295 - w32 x

def bigSigma0 (x : Nat) : Nat := rotr32 x 2 ^^^ rotr32 x 13 ^^^ rotr32 x 22

def bigSigma1 (x : Nat) : Nat := rotr32 x 6 ^^^ rotr32 x 11 ^^^ rotr32 x 25

def smallSigma0 (x : Nat) : Nat := rotr32 x 7 ^^^ rotr32 x 18 ^^^ (x >>> 3)

def smallSigma1 (x : Nat) : Nat := rotr32 x 17 ^^^ rotr32 x 19 ^^^ (x >>> 10)

def chFun (x y z : Nat) : Nat := (x &&& y) ^^^ (w32Not x &&& z)

def majFun (x y z : Nat) : Nat := (x &&& y) ^^^ (x &&& z) ^^^ (y &&& z)

def sha256K : List Nat :=
  [
    1116352408, 1899447441, 3049323471, 3921009573, 961987163,
    1508970993, 2453635748, 2870763221, 3624381080, 310598401,
    607225278, 1426881987, 1925078388, 2162078206, 2614888103,
    3248222580, 3835390401, 4022224774, 264347078, 604807628,
    770255983, 1249150122, 1555081692, 1996064986, 2554220882,
    2821834349, 2952996808, 3210313671, 3336571891, 3584528711,
    113926993, 338241895, 666307205, 773529912, 1294757372,
    1396182291, 1695183700, 1986661051, 2177026350, 2456956037,
    2730485921, 2820302411, 3259730800, 3345764771, 3516065817,
    3600352804, 4094571909, 275423344, 430227734, 506948616,
    659060556, 883997877, 958139571, 1322822218, 1537002063,
    1747873779, 1955562222, 2024104815, 2227730452, 2361852424,
    2428436474, 2756734187, 3204031479, 3329325298 ]

def sha256H0 : List Nat :=
  [
    1779033703, 3144134277, 1013904242, 2773480762, 1359893119,
    2600822924, 528734635, 1541459225 ]

def be64 (n : Nat) : List Nat :=
  (List.range 8).map (fun i => (n >>> (8 * (7 - i))) % 256)

def padMessage (msg : List Nat) : List Nat :=
  let z : Nat := (119 - msg.length % 64) % 64
  msg ++ [0x80] ++ List.replicate z 0 ++ be64 (8 * msg.length)

def toWords : List Nat → List Nat
  | b1 :: b2 :: b3 :: b4 :: rest =>
      (((b1 * 256 + b2) * 256 + b3) * 256 + b4) :: toWords rest
  | _ => []

def scheduleStep (w : List Nat) : List Nat :=
  w ++ [w32 (smallSigma1 (w.getD (w.length - 2) 0) + w.getD (w.length - 7) 0 +
             smallSigma0 (w.getD (w.length - 15) 0) + w.getD (w.length - 16) 0)]

def schedule (w : List Nat) : List Nat :=
  (List.range 48).foldl (fun acc _ => scheduleStep acc) w

def sha256Round (st : List Nat) (wk : Nat × Nat) : List Nat :=
  match st with
  | [a, b, c, d, e, f, g, h] =>
      let t1 := w32 (h + bigSigma1 e + chFun e f g + wk.2 + wk.1)
      let t2 := w32 (bigSigma0 a + majFun a b c)
      [w32 (t1 + t2), a, b, c, w32 (d + t1), e, f, g]
  | other => other

def processChunk (H : List Nat) (chunk : List Nat) : List Nat :=
  let w := schedule (toWords chunk)
  let st := (w.zip sha256K).foldl sha256Round H
  (H.zip st).map (fun p => w32 (p.1 + p.2))

def processAll (H : List Nat) : List Nat → List Nat
  | [] => H
  | b :: rest =>
      processAll (processChunk H ((b :: rest).take 64)) ((b :: rest).drop 64)
  termination_by bytes => bytes.length
  decreasing_by simp [List.length_drop]; omega

def sha256 (msg : List Nat) : List Nat :=
  (processAll sha256H0 (padMessage msg)).flatMap
    (fun wrd => [(wrd >>> 24) % 256, (wrd >>> 16) % 256, (wrd >>> 8) % 256, wrd % 256])

/-! ## `fastapi_sso/pkce.py` -/

/-- Model of `os.urandom(n)`: `n` bytes drawn from an explicit entropy
stream. -/
def pyByteStream (entropy : Nat → Nat) (n : Nat) : List Nat :=
  (List.range n).map (fun i => entropy i % 256)

/-- Model of `str.encode("utf-8")` for the strings at hand (the verifier
consists of ASCII base64url characters only, for which UTF-8 is the
identity on code points). -/
def utf8Bytes (s : String) : List Nat := s.data.map (fun ch => ch.toNat)

/-- Embedding of `get_code_verifier` from `fastapi_sso/pkce.py`:
`length = max(43, min(length, 128))`, `bytes_length = int(length * 3 / 4)`
(exact float arithmetic followed by truncation, i.e. floor division here),
then `base64.urlsafe_b64encode(os.urandom(bytes_length))` with `=` removed
and the result truncated to `length` characters. -/
def get_code_verifier (length : Int) (entropy : Nat → Nat) : String :=
  let len : Int := max 43 (min length 128)
  let c : Nat := len.toNat
  let bytesLength : Nat := c * 3 / 4
  String.mk ((b64UrlNoPad (pyByteStream entropy bytesLength)).take c)

/-- Embedding of `get_pkce_challenge_pair` from `fastapi_sso/pkce.py`. -/
def get_pkce_challenge_pair (verifier_length : Int) (entropy : Nat → Nat) :
    String × String :=
  let code_verifier := get_code_verifier verifier_length entropy
  let code_challenge := String.mk (b64UrlNoPad (sha256 (utf8Bytes code_verifier)))
  (code_verifier, code_challenge)

/-- The clamped verifier length requested by `get_code_verifier`. -/
def clampLen (length : Int) : Nat := (max 43 (min length 128)).toNat

/-! ## `fastapi_sso/sso/base.py` — session state of `SSOBase`

Python truthiness (`not state`) and stringification (`str(...)`) of
`Optional[str]` values are modelled explicitly, since the source relies
on both.
-/

def pyTruthy : Option String → Bool
  | none => false
  | some s => !(s == "")

def pyStr : Option String → String
  | none => "None"
  | some s => s

structure DiscoveryDocument where
  authorization_endpoint : String
  token_endpoint : String
  userinfo_endpoint : String
deriving DecidableEq

inductive PyError where
  | valueError (msg : String)
  | notImplementedError (msg : String)
  | ssoLoginError (statusCode : Nat) (detail : String)
deriving DecidableEq

/-- The mutable and configuration state of one `SSOBase` instance.
Class-level flags (`uses_pkce`, `requires_state`, ...) are instance fields
here; the per-login session fields mirror `_oauth_client` (reduced to
presence, which is all the embedded operations inspect),
`_refresh_token`, `_id_token`, `_state` (here `returned_state`),
`_generated_state`, `_pkce_code_verifier`, `_pkce_code_challenge`; the
`asyncio.Lock` and `_in_stack` flag are `lock_locked` / `in_stack`. -/
structure SSOState where
  provider : String
  client_id : String
  client_secret : String
  redirect_uri : Option String
  allow_insecure_http : Bool
  uses_pkce : Bool
  requires_state : Bool
  use_id_token_for_user_info : Bool
  pkce_challenge_length : Nat
  pkce_challenge_method : String
  scope : List String
  discovery : Option DiscoveryDocument
  lock_locked : Bool
  in_stack : Bool
  oauth_client : Option String
  generated_state : Option String
  refresh_token : Option String
  id_token : Option String
  returned_state : Option String
  pkce_code_verifier : Option String
  pkce_code_challenge : Option String
deriving DecidableEq

/-- Class-level attributes a concrete provider adapter supplies
(`provider`, default `scope`, the feature flags and the discovery
document; `none` stands for the base class raising
`NotImplementedError`). -/
structure SSOClassAttrs where
  provider : String
  scope : List String
  uses_pkce : Bool
  requires_state : Bool
  use_id_token_for_user_info : Bool
  discovery : Option DiscoveryDocument
deriving DecidableEq

def getParam (l : List (String × String)) (k : String) : Option String :=
  (l.find? (fun p => p.1 == k)).map (fun p => p.2)

/-- Model of `os.environ` assignment: the binding is prepended and any
older binding of the same key dropped. -/
def setEnvVar (env : List (String × String)) (k v : String) : List (String × String) :=
  (k, v) :: env.filter (fun p => !(p.1 == k))

/-- Embedding of `SSOBase.__init__`: sets the credential/configuration
fields, blank session fields, an unlocked lock, and — exactly when
`allow_insecure_http` is true — mutates the process environment by
setting `OAUTHLIB_INSECURE_TRANSPORT` to `"1"`.  The deprecated
`use_state` argument only emits a warning and is otherwise ignored.
`self._scope = scope or self.scope` falls back to the class scope when
the argument is `None` or the empty list (Python truthiness). -/
def sso_init (cls : SSOClassAttrs) (client_id client_secret : String)
    (redirect_uri : Option String) (allow_insecure_http : Bool)
    (use_state : Bool) (scope : Option (List String))
    (env : List (String × String)) : SSOState × List (String × String) :=
  ({ provider := cls.provider
     client_id := client_id
     client_secret := client_secret
     redirect_uri := redirect_uri
     allow_insecure_http := allow_insecure_http
     uses_pkce := cls.uses_pkce
     requires_state := cls.requires_state
     use_id_token_for_user_info := cls.use_id_token_for_user_info
     pkce_challenge_length := 96
     pkce_challenge_method := "S256"
     scope := match scope with
              | some l => if l.isEmpty then cls.scope else l
              | none => cls.scope
     discovery := cls.discovery
     lock_locked := false
     in_stack := false
     oauth_client := none
     generated_state := none
     refresh_token := none
     id_token := none
     returned_state := none
     pkce_code_verifier := none
     pkce_code_challenge := none },
   if allow_insecure_http then setEnvVar env "OAUTHLIB_INSECURE_TRANSPORT" "1" else env)

/-- Modelled from the spec: `generate_random_state` is imported from
`fastapi_sso/state.py`, a file of this repository that is not among the
provided sources.  Spec section 4.2 describes it as producing an opaque
random string (UUID or equivalent entropy); it is modelled as an opaque
function of an explicit random seed. -/
def generate_random_state (seed : Nat) : String :=
  "state-" ++ toString seed

/-- Embedding of `SSOBase.__aenter__` after its
`await self._login_lock.acquire()` has succeeded (the lock acquisition
itself, with its blocking behaviour, is studied in the interleaving model
below): sets `_in_stack`, resets `_oauth_client`, `_refresh_token`,
`_id_token` and `_state` to blank, regenerates `_generated_state` when
`requires_state` and the PKCE pair when `uses_pkce`; other fields keep
their previous values. -/
def sso_aenter (s : SSOState) (seed : Nat) (entropy : Nat → Nat) : SSOState :=
  { s with
    lock_locked := true
    in_stack := true
    oauth_client := none
    refresh_token := none
    id_token := none
    returned_state := none
    generated_state :=
      if s.requires_state then some (generate_random_state seed) else s.generated_state
    pkce_code_verifier :=
      if s.uses_pkce then
        some (get_pkce_challenge_pair (s.pkce_challenge_length : Int) entropy).1
      else s.pkce_code_verifier
    pkce_code_challenge :=
      if s.uses_pkce then
        some (get_pkce_challenge_pair (s.pkce_challenge_length : Int) entropy).2
      else s.pkce_code_challenge }

/-- Embedding of `SSOBase.__aexit__`: whatever the three exception
arguments are, it sets `self._in_stack = False` and calls
`self._login_lock.release()`, making the lock available again. -/
def sso_aexit (s : SSOState) (excType excVal excTb : Option String) : SSOState :=
  { s with in_stack := false, lock_locked := false }

/-- Model of the external `oauthlib` call
`WebApplicationClient.prepare_request_uri`: the authorization endpoint
with the standard query parameters; `state` is appended only when truthy,
the PKCE challenge fields only when a challenge is present, and extra
parameters last.  Percent-encoding is abstracted away (it is injective on
the comparisons made here). -/
def prepare_request_uri (clientId endpoint redirectUri : String)
    (state : Option String) (scope : List String)
    (codeChallenge : Option String) (codeChallengeMethod : String)
    (params : List (String × String)) : String :=
  let ps :=
    [("response_type", "code"), ("client_id", clientId),
     ("redirect_uri", redirectUri), ("scope", String.intercalate " " scope)]
    ++ (if pyTruthy state then [("state", pyStr state)] else [])
    ++ (match codeChallenge with
        | some cc => [("code_challenge", cc), ("code_challenge_method", codeChallengeMethod)]
        | none => [])
    ++ params
  endpoint ++ "?" ++ String.intercalate "&" (ps.map (fun p => p.1 ++ "=" ++ p.2))

/-- Embedding of `SSOBase.get_login_url`: `redirect_uri or
self.redirect_uri` (Python truthiness), `ValueError` when the result `is
None`; state falls back to `_generated_state` when the adapter requires
state and the argument is falsy; the discovery document resolves the
authorization endpoint (`NotImplementedError` for the base class); then
the request URI is prepared with the stored PKCE challenge and method. -/
def sso_get_login_url (s : SSOState) (redirect_uri : Option String)
    (params : List (String × String)) (state : Option String) :
    Except PyError String :=
  let ru := if pyTruthy redirect_uri then redirect_uri else s.redirect_uri
  match ru with
  | none => .error (.valueError "redirect_uri must be provided, either at construction or request time")
  | some r =>
    let st := if s.requires_state && !(pyTruthy state) then s.generated_state else state
    match s.discovery with
    | none => .error (.notImplementedError ("Provider " ++ s.provider ++ " not supported"))
    | some d =>
      .ok (prepare_request_uri s.client_id d.authorization_endpoint r st s.scope
        s.pkce_code_challenge s.pkce_challenge_method params)

structure RedirectResponse where
  status_code : Nat
  location : String
  cookies : List (String × String)
deriving DecidableEq

/-- Embedding of `SSOBase.get_login_redirect`: applies the same
generated-state fallback, delegates to `get_login_url`, wraps the URL in
a 303 response, and — when the adapter uses PKCE — sets the
`pkce_code_verifier` cookie to `str(self._pkce_code_verifier)`. -/
def sso_get_login_redirect (s : SSOState) (redirect_uri : Option String)
    (params : List (String × String)) (state : Option String) :
    Except PyError RedirectResponse :=
  let st := if s.requires_state && !(pyTruthy state) then s.generated_state else state
  match sso_get_login_url s redirect_uri params st with
  | .error e => .error e
  | .ok uri =>
    .ok { status_code := 303, location := uri,
          cookies := if s.uses_pkce then [("pkce_code_verifier", pyStr s.pkce_code_verifier)] else [] }

structure CallbackRequest where
  url : String
  query_params : List (String × String)
  cookies : List (String × String)
deriving DecidableEq

/-- The arguments `verify_and_process` hands to `process_login` when it
delegates (the delegated token exchange itself performs network calls and
is outside the scope of the claims settled on this function). -/
structure ProcessLoginCall where
  code : String
  params : List (String × String)
  additional_headers : List (String × String)
  redirect_uri : Option String
  pkce_code_verifier : Option String
  convert_response : Bool
deriving DecidableEq

/-- Embedding of `SSOBase.verify_and_process` up to its delegation to
`process_login`: a missing `code` query parameter raises
`SSOLoginError(400, ...)` before anything else happens; otherwise the
returned `state` is captured, the PKCE verifier read from the request
cookie when the adapter uses PKCE, and the call is delegated.  (The
`detail` string omits the quotation marks around the word code that the
source places there.) -/
def sso_verify_and_process (s : SSOState) (req : CallbackRequest)
    (params headers : List (String × String)) (redirect_uri : Option String)
    (convert_response : Bool) :
    Except PyError (SSOState × ProcessLoginCall) :=
  match getParam req.query_params "code" with
  | none => .error (.ssoLoginError 400 "code parameter was not found in callback request")
  | some code =>
    let s2 := { s with returned_state := getParam req.query_params "state" }
    let pkceVerifier :=
      if s.uses_pkce then getParam req.cookies "pkce_code_verifier" else none
    .ok (s2, { code := code, params := params, additional_headers := headers,
               redirect_uri := redirect_uri, pkce_code_verifier := pkceVerifier,
               convert_response := convert_response })

/-! ## Concrete instances used by counterexamples and witnesses -/

def discoveryExample : DiscoveryDocument :=
  { authorization_endpoint := "https://provider.example.com/auth"
    token_endpoint := "https://provider.example.com/token"
    userinfo_endpoint := "https://provider.example.com/userinfo" }

def baseState : SSOState :=
  { provider := "generic"
    client_id := "client-id"
    client_secret := "client-secret"
    redirect_uri := some "https://app.example.com/callback"
    allow_insecure_http := false
    uses_pkce := false
    requires_state := false
    use_id_token_for_user_info := false
    pkce_challenge_length := 96
    pkce_challenge_method := "S256"
    scope := ["openid"]
    discovery := some discoveryExample
    lock_locked := false
    in_stack := false
    oauth_client := none
    generated_state := none
    refresh_token := none
    id_token := none
    returned_state := none
    pkce_code_verifier := none
    pkce_code_challenge := none }

def residueState : SSOState := { baseState with generated_state := some "residue-state" }

def pkceState : SSOState := { baseState with uses_pkce := true }

def noRedirectState : SSOState := { baseState with redirect_uri := none }

def reqNoCode : CallbackRequest :=
  { url := "https://app.example.com/callback?state=xyz"
    query_params := [("state", "xyz")]
    cookies := [] }

def reqWithCode : CallbackRequest :=
  { url := "https://app.example.com/callback?code=authcode&state=xyz"
    query_params := [("code", "authcode"), ("state", "xyz")]
    cookies := [] }

def exampleLoginUrl : String :=
  "https://provider.example.com/auth?response_type=code&client_id=client-id&redirect_uri=https://app.example.com/callback&scope=openid"

def getEnvVar (env : List (String × String)) (k : String) : Option String :=
  getParam env k

/-! ## Interleaving model for the concurrency claim

Two login attempts run concurrently on one adapter instance under
cooperative (asyncio) scheduling, as in `tests/test_race_condition.py`.
Each attempt executes, in program order:

* `pc = 0`: `await self._login_lock.acquire()` (the beginning of
  `__aenter__`) — enabled only when the lock is free, and takes it;
* `pc = 1`: the session reset in the body of `__aenter__`
  (`self._oauth_client = None`, ...), recorded as a `reset` event;
* `pc = 2`: the token-exchange POST inside `process_login` — a suspension
  point; the attempt receives the next response token from the provider
  (the head of the shared response list), its *own* token-exchange
  response;
* `pc = 3`: `self.oauth_client.parse_request_body_response(...)` — the
  shared client's access token becomes the received token;
* `pc = 4`: the caller reads `provider.access_token` (still inside the
  scope), its final access token;
* `pc = 5`: `__aexit__` — releases the lock, recorded as an `exited`
  event; `pc = 6`: done.

Every instruction is its own atomic step and the scheduler may interleave
the two attempts arbitrarily, which only makes the serialization theorem
stronger than the coarser real atomicity (asyncio switches only at
awaits). -/

inductive Ev where
  | reset (t : Bool)
  | exited (t : Bool)
deriving DecidableEq

structure TaskSt where
  pc : Nat
  received : Option String
  result : Option String
deriving DecidableEq

structure Config where
  lock : Option Bool
  oauthToken : Option String
  responses : List String
  task0 : TaskSt
  task1 : TaskSt
  trace : List Ev
deriving DecidableEq

def Config.task (c : Config) (t : Bool) : TaskSt :=
  if t then c.task1 else c.task0

def Config.setTask (c : Config) (t : Bool) (ts : TaskSt) : Config :=
  if t then { c with task1 := ts } else { c with task0 := ts }

def stepAcquire (c : Config) (t : Bool) : Config :=
  ({ c with lock := some t }).setTask t { c.task t with pc := 1 }

def stepReset (c : Config) (t : Bool) : Config :=
  ({ c with oauthToken := none, trace := c.trace ++ [Ev.reset t] }).setTask t
    { c.task t with pc := 2 }

def stepPost (c : Config) (t : Bool) (r : String) (rest : List String) : Config :=
  ({ c with responses := rest }).setTask t
    { c.task t with pc := 3, received := some r }

def stepParse (c : Config) (t : Bool) (r : String) : Config :=
  ({ c with oauthToken := some r }).setTask t { c.task t with pc := 4 }

def stepRead (c : Config) (t : Bool) : Config :=
  c.setTask t { c.task t with pc := 5, result := c.oauthToken }

def stepRelease (c : Config) (t : Bool) : Config :=
  ({ c with lock := none, trace := c.trace ++ [Ev.exited t] }).setTask t
    { c.task t with pc := 6 }

inductive Step : Config → Config → Prop where
  | acquire (c : Config) (t : Bool) (hl : c.lock = none) (hpc : (c.task t).pc = 0) :
      Step c (stepAcquire c t)
  | reset (c : Config) (t : Bool) (hpc : (c.task t).pc = 1) :
      Step c (stepReset c t)
  | post (c : Config) (t : Bool) (r : String) (rest : List String)
      (hr : c.responses = r :: rest) (hpc : (c.task t).pc = 2) :
      Step c (stepPost c t r rest)
  | parse (c : Config) (t : Bool) (r : String) (hr : (c.task t).received = some r)
      (hpc : (c.task t).pc = 3) :
      Step c (stepParse c t r)
  | read (c : Config) (t : Bool) (hpc : (c.task t).pc = 4) :
      Step c (stepRead c t)
  | release (c : Config) (t : Bool) (hpc : (c.task t).pc = 5) :
      Step c (stepRelease c t)

/-- Reachability from an initial configuration by any interleaving. -/
inductive Reach (c0 : Config) : Config → Prop where
  | refl : Reach c0 c0
  | tail {c c2 : Config} : Reach c0 c → Step c c2 → Reach c0 c2

/-- The initial configuration: both attempts about to enter the scope,
the lock free, an arbitrary leftover access token on the shared client,
and an arbitrary list of pending token-exchange responses. -/
def initConfig (rs : List String) (tok0 : Option String) : Config :=
  { lock := none, oauthToken := tok0, responses := rs,
    task0 := { pc := 0, received := none, result := none },
    task1 := { pc := 0, received := none, result := none },
    trace := [] }

/-- A trace is a sequence of completed `reset t, exited t` blocks,
possibly followed by one still-open `reset t`. -/
def alternates : List Ev → Bool
  | [] => true
  | [Ev.reset _] => true
  | [Ev.exited _] => false
  | Ev.reset t :: Ev.exited u :: rest => (t == u) && alternates rest
  | Ev.reset _ :: Ev.reset _ :: _ => false
  | Ev.exited _ :: _ :: _ => false

/-- The attempt whose `reset` is not yet matched by its `exited`, if any
(meaningful on traces satisfying `alternates`). -/
def openTail : List Ev → Option Bool
  | [] => none
  | [Ev.reset t] => some t
  | [Ev.exited _] => none
  | Ev.reset _ :: Ev.exited _ :: rest => openTail rest
  | Ev.reset _ :: Ev.reset _ :: _ => none
  | Ev.exited _ :: _ :: _ => none

/-- The inductive invariant of the two-attempt system. -/
structure SysInv (c : Config) : Prop where
  lockHeld : ∀ t : Bool, 1 ≤ (c.task t).pc → (c.task t).pc ≤ 5 → c.lock = some t
  pcLe : ∀ t : Bool, (c.task t).pc ≤ 6
  recvSome : ∀ t : Bool, 3 ≤ (c.task t).pc → (c.task t).received ≠ none
  tokOwn : ∀ t : Bool, (c.task t).pc = 4 → c.oauthToken = (c.task t).received
  resOwn : ∀ t : Bool, 5 ≤ (c.task t).pc → (c.task t).result = (c.task t).received
  traceAlt : alternates c.trace = true
  openIff : ∀ t : Bool, (openTail c.trace = some t) ↔ (2 ≤ (c.task t).pc ∧ (c.task t).pc ≤ 5)

def cw0 : Config := initConfig ["tokA", "tokB"] (some "stale")
def cw1 : Config := stepAcquire cw0 false
def cw2 : Config := stepReset cw1 false
def cw3 : Config := stepPost cw2 false "tokA" ["tokB"]
def cw4 : Config := stepParse cw3 false "tokA"
def cw5 : Config := stepRead cw4 false
def cw6 : Config := stepRelease cw5 false
def cw7 : Config := stepAcquire cw6 true
def cw8 : Config := stepReset cw7 true
def cw9 : Config := stepPost cw8 true "tokB" []
def cw10 : Config := stepParse cw9 true "tokB"
def cw11 : Config := stepRead cw10 true
def cw12 : Config := stepRelease cw11 true

/-! ## Theorems -/

/-! ## Lemmas about the base64url encoder -/

theorem alphabetChar_beq_pad (i : Nat) : (alphabetChar i == '=') = false := by
  have hlt : i % 64 < 64 := Nat.mod_lt _ (by omega)
  have hall : ∀ j, j < 64 → ((b64UrlAlphabet.getD j 'A') == '=') = false := by decide
  exact hall (i % 64) hlt

theorem alphabetChar_mem (i : Nat) : alphabetChar i ∈ b64UrlAlphabet := by
  have hlt : i % 64 < b64UrlAlphabet.length := by
    have : b64UrlAlphabet.length = 64 := by decide
    omega
  rw [alphabetChar, List.getD_eq_getElem _ _ hlt]
  exact List.getElem_mem hlt

theorem b64UrlNoPad_length (bs : List Nat) :
    (b64UrlNoPad bs).length = (4 * bs.length + 2) / 3 := by
  match bs with
  | [] => rfl
  | [b1] => simp [b64UrlNoPad, b64EncodeChunks, List.filter_cons, alphabetChar_beq_pad]
  | [b1, b2] => simp [b64UrlNoPad, b64EncodeChunks, List.filter_cons, alphabetChar_beq_pad]
  | b1 :: b2 :: b3 :: rest =>
    have ih := b64UrlNoPad_length rest
    simp only [b64UrlNoPad] at ih
    simp [b64UrlNoPad, b64EncodeChunks, List.filter_cons, alphabetChar_beq_pad, ih]
    omega

theorem mem_b64UrlNoPad (bs : List Nat) (ch : Char) (h : ch ∈ b64UrlNoPad bs) :
    ch ∈ b64UrlAlphabet := by
  match bs with
  | [] => simp [b64UrlNoPad, b64EncodeChunks] at h
  | [b1] =>
    simp [b64UrlNoPad, b64EncodeChunks, List.filter_cons, alphabetChar_beq_pad] at h
    rcases h with h | h <;> exact h ▸ alphabetChar_mem _
  | [b1, b2] =>
    simp [b64UrlNoPad, b64EncodeChunks, List.filter_cons, alphabetChar_beq_pad] at h
    rcases h with h | h | h <;> exact h ▸ alphabetChar_mem _
  | b1 :: b2 :: b3 :: rest =>
    have ih := mem_b64UrlNoPad rest ch
    simp only [b64UrlNoPad] at ih
    simp only [b64UrlNoPad, b64EncodeChunks, List.filter_cons, alphabetChar_beq_pad,
      Bool.not_false, if_true, List.mem_cons] at h
    rcases h with h | h | h | h | h
    · exact h ▸ alphabetChar_mem _
    · exact h ▸ alphabetChar_mem _
    · exact h ▸ alphabetChar_mem _
    · exact h ▸ alphabetChar_mem _
    · exact ih h

/-! ## Claims C4 and C5 (PKCE helper) -/

/-- C4, counterexample: requesting length 45 (already inside the legal
range, so the clamp is the identity) yields a verifier of only 44
characters, because `int(45 * 3 / 4) = 33` bytes encode to 44 base64
characters. -/
theorem get_code_verifier_length_45_counterexample :
    clampLen 45 = 45 ∧ (get_code_verifier 45 (fun _ => 0)).length = 44 := by
  constructor
  · rfl
  · decide

/-- C4, amended: for every integer length argument, `get_code_verifier`
clamps the requested length into `[43, 128]` and returns a URL-safe,
padding-free string; its length equals the clamped value whenever the
clamped value is not congruent to 1 mod 4, and falls one character short
of the clamped value otherwise. -/
theorem get_code_verifier_clamps_and_urlsafe (L : Int) (entropy : Nat → Nat) :
    43 ≤ clampLen L ∧ clampLen L ≤ 128 ∧
    (get_code_verifier L entropy).length =
      clampLen L - (if clampLen L % 4 = 1 then 1 else 0) ∧
    ((get_code_verifier L entropy).data.all (fun ch => b64UrlAlphabet.contains ch)) = true := by
  refine ⟨by simp only [clampLen]; omega, by simp only [clampLen]; omega, ?_, ?_⟩
  · show (String.mk ((b64UrlNoPad (pyByteStream entropy (clampLen L * 3 / 4))).take (clampLen L))).length = _
    have hlen : (pyByteStream entropy (clampLen L * 3 / 4)).length = clampLen L * 3 / 4 := by
      simp [pyByteStream]
    simp only [String.length, List.length_take, b64UrlNoPad_length, hlen]
    obtain ⟨q, r, hr, hc⟩ : ∃ q r, r < 4 ∧ clampLen L = 4 * q + r :=
      ⟨clampLen L / 4, clampLen L % 4, Nat.mod_lt _ (by omega), by omega⟩
    rw [hc]
    have hm : (4 * q + r) % 4 = r := by omega
    rw [hm]
    interval_cases r <;> simp <;> omega
  · rw [List.all_eq_true]
    intro ch hch
    have hmem : ch ∈ b64UrlNoPad (pyByteStream entropy (clampLen L * 3 / 4)) :=
      List.take_subset _ _ hch
    exact List.elem_iff.mpr (mem_b64UrlNoPad _ _ hmem)

/-- C4, witness: the amended statement instantiated at requested length 45
with the all-zero entropy stream. -/
theorem get_code_verifier_clamps_and_urlsafe_witness :
    43 ≤ clampLen 45 ∧ clampLen 45 ≤ 128 ∧
    (get_code_verifier 45 (fun _ => 0)).length =
      clampLen 45 - (if clampLen 45 % 4 = 1 then 1 else 0) ∧
    ((get_code_verifier 45 (fun _ => 0)).data.all (fun ch => b64UrlAlphabet.contains ch)) = true :=
  get_code_verifier_clamps_and_urlsafe 45 (fun _ => 0)

/-- C5: the pair returned by `get_pkce_challenge_pair` satisfies
`challenge = base64url-encode-without-padding (SHA256 verifier)`, and the
challenge is a deterministic function of the verifier: any two calls
(whatever their length arguments and entropy) that produce the same
verifier produce the same challenge. -/
theorem get_pkce_challenge_pair_challenge_eq (len : Int) (entropy : Nat → Nat) :
    (get_pkce_challenge_pair len entropy).2 =
      String.mk (b64UrlNoPad (sha256 (utf8Bytes (get_pkce_challenge_pair len entropy).1))) ∧
    ∀ (len2 : Int) (entropy2 : Nat → Nat),
      (get_pkce_challenge_pair len entropy).1 = (get_pkce_challenge_pair len2 entropy2).1 →
      (get_pkce_challenge_pair len entropy).2 = (get_pkce_challenge_pair len2 entropy2).2 := by
  refine ⟨rfl, ?_⟩
  intro len2 entropy2 hv
  show String.mk (b64UrlNoPad (sha256 (utf8Bytes (get_code_verifier len entropy)))) =
      String.mk (b64UrlNoPad (sha256 (utf8Bytes (get_code_verifier len2 entropy2))))
  have hv2 : get_code_verifier len entropy = get_code_verifier len2 entropy2 := hv
  rw [hv2]

/-- C5, witness: the theorem instantiated at length 43 with constant
entropy, the determinism hypothesis discharged reflexively. -/
theorem get_pkce_challenge_pair_challenge_eq_witness :
    (get_pkce_challenge_pair 43 (fun _ => 65)).2 =
      String.mk (b64UrlNoPad (sha256 (utf8Bytes (get_pkce_challenge_pair 43 (fun _ => 65)).1))) ∧
    (get_pkce_challenge_pair 43 (fun _ => 65)).2 = (get_pkce_challenge_pair 43 (fun _ => 65)).2 :=
  ⟨(get_pkce_challenge_pair_challenge_eq 43 (fun _ => 65)).1,
   (get_pkce_challenge_pair_challenge_eq 43 (fun _ => 65)).2 43 (fun _ => 65) rfl⟩

/-! ## Claim C2 (`__aexit__` is unconditional cleanup) -/

/-- C2: for every invocation of `__aexit__`, whatever the
exception-type/value/traceback arguments are (normal exit or any error),
the resulting state has the in-scope flag cleared and the login lock
released, and the result does not depend on the exception arguments at
all, so a subsequent scope entry is not blocked by a failed prior
attempt. -/
theorem sso_aexit_unconditional_cleanup (s : SSOState) (excType excVal excTb : Option String) :
    (sso_aexit s excType excVal excTb).in_stack = false ∧
    (sso_aexit s excType excVal excTb).lock_locked = false ∧
    sso_aexit s excType excVal excTb = sso_aexit s none none none :=
  ⟨rfl, rfl, rfl⟩

/-! ## Claim C3 (`__aenter__` resets session fields) -/

/-- C3, counterexample: on an adapter that does not require state, a
leftover `_generated_state` value survives `__aenter__` unchanged — the
field is neither reset to blank nor freshly generated, contradicting the
claim that entering the scope resets all session fields (including the
generated state) to a blank state for every prior value of the fields. -/
theorem sso_aenter_residue_counterexample :
    residueState.requires_state = false ∧
    (sso_aenter residueState 0 (fun _ => 0)).generated_state = some "residue-state" :=
  ⟨rfl, rfl⟩

/-- C3, amended: entering the async scope resets the oauth client handle,
refresh token, id token and returned state to blank; it overwrites the
generated state with a freshly generated value exactly when the adapter
requires state, and the PKCE verifier/challenge pair with a freshly
generated pair exactly when the adapter uses PKCE; when the respective
flag is off, the generated-state and PKCE fields keep their prior value
(for an adapter whose flags never change, those fields are blank in every
state reachable from construction, so no residue from a prior login can
actually persist). -/
theorem sso_aenter_resets_and_generates (s : SSOState) (seed : Nat) (entropy : Nat → Nat) :
    (sso_aenter s seed entropy).oauth_client = none ∧
    (sso_aenter s seed entropy).refresh_token = none ∧
    (sso_aenter s seed entropy).id_token = none ∧
    (sso_aenter s seed entropy).returned_state = none ∧
    (sso_aenter s seed entropy).generated_state =
      (if s.requires_state then some (generate_random_state seed) else s.generated_state) ∧
    (sso_aenter s seed entropy).pkce_code_verifier =
      (if s.uses_pkce then some (get_pkce_challenge_pair (s.pkce_challenge_length : Int) entropy).1
       else s.pkce_code_verifier) ∧
    (sso_aenter s seed entropy).pkce_code_challenge =
      (if s.uses_pkce then some (get_pkce_challenge_pair (s.pkce_challenge_length : Int) entropy).2
       else s.pkce_code_challenge) :=
  ⟨rfl, rfl, rfl, rfl, rfl, rfl, rfl⟩

/-! ## Claim C6 (`verify_and_process` on a missing `code`) -/

/-- C6: a callback request without a `code` query parameter makes
`verify_and_process` fail with `SSOLoginError` carrying HTTP status 400,
before any delegation to the token exchange; a request that does carry a
`code` is not rejected at this step — the call is delegated to
`process_login` with exactly that code. -/
theorem sso_verify_and_process_missing_code (s : SSOState) (req : CallbackRequest)
    (params headers : List (String × String)) (redirect_uri : Option String)
    (convert_response : Bool) :
    (getParam req.query_params "code" = none →
      sso_verify_and_process s req params headers redirect_uri convert_response =
        .error (.ssoLoginError 400 "code parameter was not found in callback request")) ∧
    (∀ code, getParam req.query_params "code" = some code →
      ∃ s2 call, sso_verify_and_process s req params headers redirect_uri convert_response =
          .ok (s2, call) ∧ call.code = code) := by
  constructor
  · intro h
    simp [sso_verify_and_process, h]
  · intro code h
    refine ⟨{ s with returned_state := getParam req.query_params "state" },
            { code := code, params := params, additional_headers := headers,
              redirect_uri := redirect_uri,
              pkce_code_verifier :=
                if s.uses_pkce then getParam req.cookies "pkce_code_verifier" else none,
              convert_response := convert_response }, ?_, rfl⟩
    simp [sso_verify_and_process, h]

/-- C6, witness: a concrete request with no `code` parameter is rejected
with status 400, and a concrete request carrying `code=authcode` is
delegated with that code. -/
theorem sso_verify_and_process_missing_code_witness :
    (sso_verify_and_process baseState reqNoCode [] [] none true =
      .error (.ssoLoginError 400 "code parameter was not found in callback request")) ∧
    (∃ s2 call, sso_verify_and_process baseState reqWithCode [] [] none true =
        .ok (s2, call) ∧ call.code = "authcode") :=
  ⟨(sso_verify_and_process_missing_code baseState reqNoCode [] [] none true).1 rfl,
   (sso_verify_and_process_missing_code baseState reqWithCode [] [] none true).2 "authcode" rfl⟩

/-! ## Claim C7 (`get_login_url` requires a redirect URI) -/

/-- C7: on an instance constructed without a redirect URI, calling
`get_login_url` without a `redirect_uri` argument fails with
`ValueError`; supplying a (non-empty) redirect URI at call time, or any
redirect URI at construction, prevents this error. -/
theorem sso_get_login_url_requires_redirect_uri (s : SSOState)
    (params : List (String × String)) (state : Option String) :
    (s.redirect_uri = none →
      sso_get_login_url s none params state =
        .error (.valueError "redirect_uri must be provided, either at construction or request time")) ∧
    (∀ r : String, r ≠ "" →
      ∀ m, sso_get_login_url s (some r) params state ≠ .error (.valueError m)) ∧
    (∀ r : String, s.redirect_uri = some r →
      ∀ ruArg m, sso_get_login_url s ruArg params state ≠ .error (.valueError m)) := by
  refine ⟨?_, ?_, ?_⟩
  · intro h
    simp [sso_get_login_url, pyTruthy, h]
  · intro r hr m
    have ht : pyTruthy (some r) = true := by simp [pyTruthy, hr]
    simp only [sso_get_login_url, ht, if_pos]
    cases s.discovery <;> simp
  · intro r hs ruArg m
    rcases hpt : pyTruthy ruArg with _ | _
    · simp only [sso_get_login_url, hpt, if_neg, Bool.false_eq_true, not_false_iff, ite_false, hs]
      cases s.discovery <;> simp
    · rcases ruArg with _ | x
      · simp [pyTruthy] at hpt
      · simp only [sso_get_login_url, hpt, ite_true]
        cases s.discovery <;> simp

/-- C7, witness: the three parts instantiated at concrete states (no
redirect URI anywhere; one supplied at call time; one bound at
construction). -/
theorem sso_get_login_url_requires_redirect_uri_witness :
    (sso_get_login_url noRedirectState none [] none =
      .error (.valueError "redirect_uri must be provided, either at construction or request time")) ∧
    (∀ m, sso_get_login_url noRedirectState (some "https://app.example.com/callback") [] none ≠
      .error (.valueError m)) ∧
    (∀ m, sso_get_login_url baseState none [] none ≠ .error (.valueError m)) :=
  ⟨(sso_get_login_url_requires_redirect_uri noRedirectState [] none).1 rfl,
   fun m => (sso_get_login_url_requires_redirect_uri noRedirectState [] none).2.1
     "https://app.example.com/callback" (by decide) m,
   fun m => (sso_get_login_url_requires_redirect_uri baseState [] none).2.2
     "https://app.example.com/callback" rfl none m⟩

/-! ## Claims C8 and C9 (`get_login_redirect`) -/

theorem sso_get_login_url_state_fallback (s : SSOState) (ru : Option String)
    (params : List (String × String)) (state : Option String) :
    sso_get_login_url s ru params
      (if s.requires_state && !(pyTruthy state) then s.generated_state else state) =
    sso_get_login_url s ru params state := by
  by_cases hq : s.requires_state = true
  · by_cases ht : pyTruthy state = true
    · simp [hq, ht]
    · simp only [Bool.not_eq_true] at ht
      simp [sso_get_login_url, hq, ht, ite_self]
  · simp only [Bool.not_eq_true] at hq
    simp [sso_get_login_url, hq]

theorem redirect_ok_of_url_ok (s : SSOState) (ru : Option String)
    (params : List (String × String)) (state : Option String) (u : String)
    (h : sso_get_login_url s ru params state = .ok u) :
    sso_get_login_redirect s ru params state =
      .ok { status_code := 303, location := u,
            cookies := if s.uses_pkce then [("pkce_code_verifier", pyStr s.pkce_code_verifier)]
                       else [] } := by
  simp only [sso_get_login_redirect]
  rw [sso_get_login_url_state_fallback s ru params state, h]

/-- C8: whenever `get_login_url` returns a URL for given arguments,
`get_login_redirect` with identical arguments on the same instance state
returns an HTTP 303 response whose `Location` equals that URL, carrying
the `pkce_code_verifier` cookie (holding the stringified stored verifier)
exactly when the adapter uses PKCE, and no cookie otherwise. -/
theorem sso_get_login_redirect_matches_login_url (s : SSOState) (ru : Option String)
    (params : List (String × String)) (state : Option String) (u : String)
    (h : sso_get_login_url s ru params state = .ok u) :
    sso_get_login_redirect s ru params state =
      .ok { status_code := 303, location := u,
            cookies := if s.uses_pkce then [("pkce_code_verifier", pyStr s.pkce_code_verifier)]
                       else [] } :=
  redirect_ok_of_url_ok s ru params state u h

/-- C8, witness: on a concrete adapter the redirect response is a 303
whose location is exactly the login URL, with no cookie (no PKCE). -/
theorem sso_get_login_redirect_matches_login_url_witness :
    sso_get_login_redirect baseState none [] none =
      .ok { status_code := 303, location := exampleLoginUrl, cookies := [] } :=
  sso_get_login_redirect_matches_login_url baseState none [] none exampleLoginUrl rfl

/-- C9: on an adapter using PKCE whose stored verifier is absent (`None`,
e.g. because no scope entry generated one), `get_login_redirect` still
sets the `pkce_code_verifier` cookie, and its value is the literal string
"None" — the Python stringification of the absent value — rather than
the cookie being omitted. -/
theorem sso_get_login_redirect_pkce_cookie_none (s : SSOState) (ru : Option String)
    (params : List (String × String)) (state : Option String) (u : String)
    (hp : s.uses_pkce = true) (hv : s.pkce_code_verifier = none)
    (h : sso_get_login_url s ru params state = .ok u) :
    sso_get_login_redirect s ru params state =
      .ok { status_code := 303, location := u,
            cookies := [("pkce_code_verifier", "None")] } := by
  have h2 := redirect_ok_of_url_ok s ru params state u h
  rw [hp, hv] at h2
  exact h2

/-- C9, witness: a concrete PKCE adapter with no generated verifier sets
the cookie with the literal value "None". -/
theorem sso_get_login_redirect_pkce_cookie_none_witness :
    sso_get_login_redirect pkceState none [] none =
      .ok { status_code := 303, location := exampleLoginUrl,
            cookies := [("pkce_code_verifier", "None")] } :=
  sso_get_login_redirect_pkce_cookie_none pkceState none [] none exampleLoginUrl rfl rfl rfl

/-! ## Claim C10 (constructor mutates process-global environment) -/

/-- C10: constructing an instance with `allow_insecure_http = True` sets
the process-wide environment variable `OAUTHLIB_INSECURE_TRANSPORT` to
"1"; constructing with `allow_insecure_http = False` never touches the
environment, so a later construction with the flag off leaves the
variable set for every other instance in the process. -/
theorem sso_init_insecure_transport_global (cls : SSOClassAttrs) (cid csec : String)
    (ru : Option String) (us : Bool) (sc : Option (List String))
    (env : List (String × String)) :
    getEnvVar (sso_init cls cid csec ru true us sc env).2 "OAUTHLIB_INSECURE_TRANSPORT" = some "1" ∧
    (sso_init cls cid csec ru false us sc env).2 = env ∧
    (∀ cls2 cid2 csec2 ru2 us2 sc2,
      getEnvVar (sso_init cls2 cid2 csec2 ru2 false us2 sc2
          (sso_init cls cid csec ru true us sc env).2).2
        "OAUTHLIB_INSECURE_TRANSPORT" = some "1") :=
  ⟨rfl, rfl, fun _ _ _ _ _ _ => rfl⟩

theorem task_setTask_same (c : Config) (t : Bool) (ts : TaskSt) :
    (c.setTask t ts).task t = ts := by
  cases t <;> simp [Config.task, Config.setTask]

theorem task_setTask_other (c : Config) (t u : Bool) (ts : TaskSt) (h : u ≠ t) :
    (c.setTask t ts).task u = c.task u := by
  cases t <;> cases u <;> simp_all [Config.task, Config.setTask]

theorem alternates_append_reset (t : Bool) :
    ∀ l, alternates l = true → openTail l = none →
      alternates (l ++ [Ev.reset t]) = true ∧ openTail (l ++ [Ev.reset t]) = some t
  | [] => fun _ _ => by simp [alternates, openTail]
  | [Ev.reset u] => fun _ h2 => by simp [openTail] at h2
  | [Ev.exited u] => fun h1 _ => by simp [alternates] at h1
  | Ev.reset u :: Ev.exited v :: rest => fun h1 h2 => by
      simp only [alternates, Bool.and_eq_true, beq_iff_eq] at h1
      have ih := alternates_append_reset t rest h1.2 (by simpa [openTail] using h2)
      simp [alternates, openTail, List.cons_append, h1.1, ih.1, ih.2]
  | Ev.reset u :: Ev.reset v :: rest => fun h1 _ => by simp [alternates] at h1
  | Ev.exited u :: x :: rest => fun h1 _ => by simp [alternates] at h1

theorem alternates_append_exited (t : Bool) :
    ∀ l, alternates l = true → openTail l = some t →
      alternates (l ++ [Ev.exited t]) = true ∧ openTail (l ++ [Ev.exited t]) = none
  | [] => fun _ h2 => by simp [openTail] at h2
  | [Ev.reset u] => fun _ h2 => by
      simp only [openTail, Option.some.injEq] at h2
      subst h2
      simp [alternates, openTail]
  | [Ev.exited u] => fun h1 _ => by simp [alternates] at h1
  | Ev.reset u :: Ev.exited v :: rest => fun h1 h2 => by
      simp only [alternates, Bool.and_eq_true, beq_iff_eq] at h1
      have ih := alternates_append_exited t rest h1.2 (by simpa [openTail] using h2)
      simp [alternates, openTail, List.cons_append, h1.1, ih.1, ih.2]
  | Ev.reset u :: Ev.reset v :: rest => fun h1 _ => by simp [alternates] at h1
  | Ev.exited u :: x :: rest => fun h1 _ => by simp [alternates] at h1

theorem alternates_resets_separated :
    ∀ l, alternates l = true → ∀ i j a b, i < j →
      l.get? i = some (Ev.reset a) → l.get? j = some (Ev.reset b) →
      ∃ k, i < k ∧ k < j ∧ l.get? k = some (Ev.exited a)
  | [] => fun _ i j a b _ hi _ => by simp at hi
  | [Ev.reset u] => fun _ i j a b hij hi hj => by
      match j, hj with
      | 0, hj => omega
      | j + 1, hj => simp at hj
  | [Ev.exited u] => fun h1 _ => by simp [alternates] at h1
  | Ev.reset u :: Ev.exited v :: rest => fun h1 i j a b hij hi hj => by
      simp only [alternates, Bool.and_eq_true, beq_iff_eq] at h1
      match i, hi with
      | 0, hi =>
        simp only [List.get?_cons_zero, Option.some.injEq, Ev.reset.injEq] at hi
        match j, hj with
        | 0, hj => omega
        | 1, hj => simp at hj
        | j + 2, hj =>
          refine ⟨1, by omega, by omega, ?_⟩
          simp [← h1.1, hi]
      | 1, hi => simp at hi
      | i + 2, hi =>
        match j, hj with
        | 0, hj => omega
        | 1, hj => omega
        | j + 2, hj =>
          simp only [List.get?_cons_succ] at hi hj
          obtain ⟨k, hk1, hk2, hk3⟩ :=
            alternates_resets_separated rest h1.2 i j a b (by omega) hi hj
          exact ⟨k + 2, by omega, by omega, by simpa using hk3⟩
  | Ev.reset u :: Ev.reset v :: rest => fun h1 _ => by simp [alternates] at h1
  | Ev.exited u :: x :: rest => fun h1 _ => by simp [alternates] at h1

theorem setTask_lock (c : Config) (t : Bool) (ts : TaskSt) :
    (c.setTask t ts).lock = c.lock := by cases t <;> rfl

theorem setTask_oauth (c : Config) (t : Bool) (ts : TaskSt) :
    (c.setTask t ts).oauthToken = c.oauthToken := by cases t <;> rfl

theorem setTask_trace (c : Config) (t : Bool) (ts : TaskSt) :
    (c.setTask t ts).trace = c.trace := by cases t <;> rfl

theorem task_mkLock (c : Config) (x : Option Bool) (u : Bool) :
    Config.task { c with lock := x } u = c.task u := by cases u <;> rfl

theorem task_mkOauthTrace (c : Config) (x : Option String) (tr : List Ev) (u : Bool) :
    Config.task { c with oauthToken := x, trace := tr } u = c.task u := by cases u <;> rfl

theorem task_mkResponses (c : Config) (x : List String) (u : Bool) :
    Config.task { c with responses := x } u = c.task u := by cases u <;> rfl

theorem task_mkOauth (c : Config) (x : Option String) (u : Bool) :
    Config.task { c with oauthToken := x } u = c.task u := by cases u <;> rfl

theorem task_mkLockTrace (c : Config) (x : Option Bool) (tr : List Ev) (u : Bool) :
    Config.task { c with lock := x, trace := tr } u = c.task u := by cases u <;> rfl

theorem stepAcquire_lock (c : Config) (t : Bool) : (stepAcquire c t).lock = some t := by
  rw [stepAcquire, setTask_lock]

theorem stepAcquire_oauth (c : Config) (t : Bool) :
    (stepAcquire c t).oauthToken = c.oauthToken := by rw [stepAcquire, setTask_oauth]

theorem stepAcquire_trace (c : Config) (t : Bool) :
    (stepAcquire c t).trace = c.trace := by rw [stepAcquire, setTask_trace]

theorem stepAcquire_task_same (c : Config) (t : Bool) :
    (stepAcquire c t).task t = { c.task t with pc := 1 } := by
  rw [stepAcquire, task_setTask_same]

theorem stepAcquire_task_other (c : Config) (t u : Bool) (h : u ≠ t) :
    (stepAcquire c t).task u = c.task u := by
  rw [stepAcquire, task_setTask_other _ _ _ _ h, task_mkLock]

theorem stepReset_lock (c : Config) (t : Bool) : (stepReset c t).lock = c.lock := by
  rw [stepReset, setTask_lock]

theorem stepReset_oauth (c : Config) (t : Bool) : (stepReset c t).oauthToken = none := by
  rw [stepReset, setTask_oauth]

theorem stepReset_trace (c : Config) (t : Bool) :
    (stepReset c t).trace = c.trace ++ [Ev.reset t] := by rw [stepReset, setTask_trace]

theorem stepReset_task_same (c : Config) (t : Bool) :
    (stepReset c t).task t = { c.task t with pc := 2 } := by
  rw [stepReset, task_setTask_same]

theorem stepReset_task_other (c : Config) (t u : Bool) (h : u ≠ t) :
    (stepReset c t).task u = c.task u := by
  rw [stepReset, task_setTask_other _ _ _ _ h, task_mkOauthTrace]

theorem stepPost_lock (c : Config) (t : Bool) (r : String) (rest : List String) :
    (stepPost c t r rest).lock = c.lock := by rw [stepPost, setTask_lock]

theorem stepPost_oauth (c : Config) (t : Bool) (r : String) (rest : List String) :
    (stepPost c t r rest).oauthToken = c.oauthToken := by rw [stepPost, setTask_oauth]

theorem stepPost_trace (c : Config) (t : Bool) (r : String) (rest : List String) :
    (stepPost c t r rest).trace = c.trace := by rw [stepPost, setTask_trace]

theorem stepPost_task_same (c : Config) (t : Bool) (r : String) (rest : List String) :
    (stepPost c t r rest).task t = { c.task t with pc := 3, received := some r } := by
  rw [stepPost, task_setTask_same]

theorem stepPost_task_other (c : Config) (t u : Bool) (r : String) (rest : List String)
    (h : u ≠ t) : (stepPost c t r rest).task u = c.task u := by
  rw [stepPost, task_setTask_other _ _ _ _ h, task_mkResponses]

theorem stepParse_lock (c : Config) (t : Bool) (r : String) :
    (stepParse c t r).lock = c.lock := by rw [stepParse, setTask_lock]

theorem stepParse_oauth (c : Config) (t : Bool) (r : String) :
    (stepParse c t r).oauthToken = some r := by rw [stepParse, setTask_oauth]

theorem stepParse_trace (c : Config) (t : Bool) (r : String) :
    (stepParse c t r).trace = c.trace := by rw [stepParse, setTask_trace]

theorem stepParse_task_same (c : Config) (t : Bool) (r : String) :
    (stepParse c t r).task t = { c.task t with pc := 4 } := by
  rw [stepParse, task_setTask_same]

theorem stepParse_task_other (c : Config) (t u : Bool) (r : String) (h : u ≠ t) :
    (stepParse c t r).task u = c.task u := by
  rw [stepParse, task_setTask_other _ _ _ _ h, task_mkOauth]

theorem stepRead_lock (c : Config) (t : Bool) : (stepRead c t).lock = c.lock := by
  rw [stepRead, setTask_lock]

theorem stepRead_oauth (c : Config) (t : Bool) :
    (stepRead c t).oauthToken = c.oauthToken := by rw [stepRead, setTask_oauth]

theorem stepRead_trace (c : Config) (t : Bool) : (stepRead c t).trace = c.trace := by
  rw [stepRead, setTask_trace]

theorem stepRead_task_same (c : Config) (t : Bool) :
    (stepRead c t).task t = { c.task t with pc := 5, result := c.oauthToken } := by
  rw [stepRead, task_setTask_same]

theorem stepRead_task_other (c : Config) (t u : Bool) (h : u ≠ t) :
    (stepRead c t).task u = c.task u := by
  rw [stepRead, task_setTask_other _ _ _ _ h]

theorem stepRelease_lock (c : Config) (t : Bool) : (stepRelease c t).lock = none := by
  rw [stepRelease, setTask_lock]

theorem stepRelease_oauth (c : Config) (t : Bool) :
    (stepRelease c t).oauthToken = c.oauthToken := by rw [stepRelease, setTask_oauth]

theorem stepRelease_trace (c : Config) (t : Bool) :
    (stepRelease c t).trace = c.trace ++ [Ev.exited t] := by rw [stepRelease, setTask_trace]

theorem stepRelease_task_same (c : Config) (t : Bool) :
    (stepRelease c t).task t = { c.task t with pc := 6 } := by
  rw [stepRelease, task_setTask_same]

theorem stepRelease_task_other (c : Config) (t u : Bool) (h : u ≠ t) :
    (stepRelease c t).task u = c.task u := by
  rw [stepRelease, task_setTask_other _ _ _ _ h, task_mkLockTrace]

theorem lock_unique {c : Config} (hinv : SysInv c) {t u : Bool} (h : u ≠ t)
    (ht1 : 1 ≤ (c.task t).pc) (ht5 : (c.task t).pc ≤ 5)
    (hu1 : 1 ≤ (c.task u).pc) (hu5 : (c.task u).pc ≤ 5) : False := by
  have h1 := hinv.lockHeld t ht1 ht5
  have h2 := hinv.lockHeld u hu1 hu5
  rw [h1] at h2
  exact h (Option.some.inj h2).symm

theorem sysInv_step {c c2 : Config} (hinv : SysInv c) (hs : Step c c2) : SysInv c2 := by
  cases hs with
  | acquire t hl hpc =>
    refine ⟨?_, ?_, ?_, ?_, ?_, ?_, ?_⟩
    · intro u h1 h5
      by_cases hut : t = u
      · subst hut
        rw [stepAcquire_lock]
      · rw [stepAcquire_task_other c t u (Ne.symm hut)] at h1 h5
        have hcontra := hinv.lockHeld u h1 h5
        rw [hl] at hcontra
        simp at hcontra
    · intro u
      by_cases hut : t = u
      · subst hut
        rw [stepAcquire_task_same]
        simp
      · rw [stepAcquire_task_other c t u (Ne.symm hut)]
        exact hinv.pcLe u
    · intro u h3
      by_cases hut : t = u
      · subst hut
        rw [stepAcquire_task_same] at h3
        simp at h3
      · rw [stepAcquire_task_other c t u (Ne.symm hut)] at h3 ⊢
        exact hinv.recvSome u h3
    · intro u h4
      by_cases hut : t = u
      · subst hut
        rw [stepAcquire_task_same] at h4
        simp at h4
      · rw [stepAcquire_task_other c t u (Ne.symm hut)] at h4 ⊢
        rw [stepAcquire_oauth]
        exact hinv.tokOwn u h4
    · intro u h5
      by_cases hut : t = u
      · subst hut
        rw [stepAcquire_task_same] at h5
        simp at h5
      · rw [stepAcquire_task_other c t u (Ne.symm hut)] at h5 ⊢
        exact hinv.resOwn u h5
    · rw [stepAcquire_trace]
      exact hinv.traceAlt
    · intro u
      rw [stepAcquire_trace]
      by_cases hut : t = u
      · subst hut
        rw [stepAcquire_task_same]
        constructor
        · intro h
          have h2 := (hinv.openIff t).mp h
          omega
        · intro h2
          exfalso
          have : ({ c.task t with pc := 1 } : TaskSt).pc = 1 := rfl
          omega
      · rw [stepAcquire_task_other c t u (Ne.symm hut)]
        exact hinv.openIff u
  | reset t hpc =>
    have hlock : c.lock = some t := hinv.lockHeld t (by omega) (by omega)
    have hopen : openTail c.trace = none := by
      rcases hop : openTail c.trace with _ | u
      · rfl
      · exfalso
        have h2 := (hinv.openIff u).mp hop
        by_cases hut : t = u
        · subst hut
          omega
        · exact lock_unique hinv (Ne.symm hut) (by omega) (by omega) (by omega) (by omega)
    have happ := alternates_append_reset t c.trace hinv.traceAlt hopen
    refine ⟨?_, ?_, ?_, ?_, ?_, ?_, ?_⟩
    · intro u h1 h5
      rw [stepReset_lock]
      by_cases hut : t = u
      · subst hut
        exact hlock
      · rw [stepReset_task_other c t u (Ne.symm hut)] at h1 h5
        exact hinv.lockHeld u h1 h5
    · intro u
      by_cases hut : t = u
      · subst hut
        rw [stepReset_task_same]
        simp
      · rw [stepReset_task_other c t u (Ne.symm hut)]
        exact hinv.pcLe u
    · intro u h3
      by_cases hut : t = u
      · subst hut
        rw [stepReset_task_same] at h3
        simp at h3
      · rw [stepReset_task_other c t u (Ne.symm hut)] at h3 ⊢
        exact hinv.recvSome u h3
    · intro u h4
      by_cases hut : t = u
      · subst hut
        rw [stepReset_task_same] at h4
        simp at h4
      · exfalso
        rw [stepReset_task_other c t u (Ne.symm hut)] at h4
        exact lock_unique hinv (Ne.symm hut) (by omega) (by omega) (by omega) (by omega)
    · intro u h5
      by_cases hut : t = u
      · subst hut
        rw [stepReset_task_same] at h5
        simp at h5
      · rw [stepReset_task_other c t u (Ne.symm hut)] at h5 ⊢
        exact hinv.resOwn u h5
    · rw [stepReset_trace]
      exact happ.1
    · intro u
      rw [stepReset_trace]
      by_cases hut : t = u
      · subst hut
        rw [stepReset_task_same, happ.2]
        constructor
        · intro _
          exact ⟨by simp, by simp⟩
        · intro _
          rfl
      · rw [stepReset_task_other c t u (Ne.symm hut), happ.2]
        constructor
        · intro h
          exact absurd (Option.some.inj h).symm (Ne.symm hut)
        · intro h2
          exfalso
          exact lock_unique hinv (Ne.symm hut) (by omega) (by omega) (by omega) (by omega)
  | post t r rest hr hpc =>
    have hlock : c.lock = some t := hinv.lockHeld t (by omega) (by omega)
    refine ⟨?_, ?_, ?_, ?_, ?_, ?_, ?_⟩
    · intro u h1 h5
      rw [stepPost_lock]
      by_cases hut : t = u
      · subst hut
        exact hlock
      · rw [stepPost_task_other c t u r rest (Ne.symm hut)] at h1 h5
        exact hinv.lockHeld u h1 h5
    · intro u
      by_cases hut : t = u
      · subst hut
        rw [stepPost_task_same]
        simp
      · rw [stepPost_task_other c t u r rest (Ne.symm hut)]
        exact hinv.pcLe u
    · intro u h3
      by_cases hut : t = u
      · subst hut
        rw [stepPost_task_same]
        simp
      · rw [stepPost_task_other c t u r rest (Ne.symm hut)] at h3 ⊢
        exact hinv.recvSome u h3
    · intro u h4
      by_cases hut : t = u
      · subst hut
        rw [stepPost_task_same] at h4
        simp at h4
      · exfalso
        rw [stepPost_task_other c t u r rest (Ne.symm hut)] at h4
        exact lock_unique hinv (Ne.symm hut) (by omega) (by omega) (by omega) (by omega)
    · intro u h5
      by_cases hut : t = u
      · subst hut
        rw [stepPost_task_same] at h5
        simp at h5
      · rw [stepPost_task_other c t u r rest (Ne.symm hut)] at h5 ⊢
        exact hinv.resOwn u h5
    · rw [stepPost_trace]
      exact hinv.traceAlt
    · intro u
      rw [stepPost_trace]
      by_cases hut : t = u
      · subst hut
        rw [stepPost_task_same]
        constructor
        · intro _
          exact ⟨by simp, by simp⟩
        · intro _
          exact (hinv.openIff t).mpr ⟨by omega, by omega⟩
      · rw [stepPost_task_other c t u r rest (Ne.symm hut)]
        exact hinv.openIff u
  | parse t r hrec hpc =>
    have hlock : c.lock = some t := hinv.lockHeld t (by omega) (by omega)
    refine ⟨?_, ?_, ?_, ?_, ?_, ?_, ?_⟩
    · intro u h1 h5
      rw [stepParse_lock]
      by_cases hut : t = u
      · subst hut
        exact hlock
      · rw [stepParse_task_other c t u r (Ne.symm hut)] at h1 h5
        exact hinv.lockHeld u h1 h5
    · intro u
      by_cases hut : t = u
      · subst hut
        rw [stepParse_task_same]
        simp
      · rw [stepParse_task_other c t u r (Ne.symm hut)]
        exact hinv.pcLe u
    · intro u h3
      by_cases hut : t = u
      · subst hut
        rw [stepParse_task_same]
        show (c.task t).received ≠ none
        exact hinv.recvSome t (by omega)
      · rw [stepParse_task_other c t u r (Ne.symm hut)] at h3 ⊢
        exact hinv.recvSome u h3
    · intro u h4
      by_cases hut : t = u
      · subst hut
        rw [stepParse_task_same, stepParse_oauth]
        show some r = (c.task t).received
        exact hrec.symm
      · exfalso
        rw [stepParse_task_other c t u r (Ne.symm hut)] at h4
        exact lock_unique hinv (Ne.symm hut) (by omega) (by omega) (by omega) (by omega)
    · intro u h5
      by_cases hut : t = u
      · subst hut
        rw [stepParse_task_same] at h5
        simp at h5
      · rw [stepParse_task_other c t u r (Ne.symm hut)] at h5 ⊢
        exact hinv.resOwn u h5
    · rw [stepParse_trace]
      exact hinv.traceAlt
    · intro u
      rw [stepParse_trace]
      by_cases hut : t = u
      · subst hut
        rw [stepParse_task_same]
        constructor
        · intro _
          exact ⟨by simp, by simp⟩
        · intro _
          exact (hinv.openIff t).mpr ⟨by omega, by omega⟩
      · rw [stepParse_task_other c t u r (Ne.symm hut)]
        exact hinv.openIff u
  | read t hpc =>
    have hlock : c.lock = some t := hinv.lockHeld t (by omega) (by omega)
    refine ⟨?_, ?_, ?_, ?_, ?_, ?_, ?_⟩
    · intro u h1 h5
      rw [stepRead_lock]
      by_cases hut : t = u
      · subst hut
        exact hlock
      · rw [stepRead_task_other c t u (Ne.symm hut)] at h1 h5
        exact hinv.lockHeld u h1 h5
    · intro u
      by_cases hut : t = u
      · subst hut
        rw [stepRead_task_same]
        simp
      · rw [stepRead_task_other c t u (Ne.symm hut)]
        exact hinv.pcLe u
    · intro u h3
      by_cases hut : t = u
      · subst hut
        rw [stepRead_task_same]
        show (c.task t).received ≠ none
        exact hinv.recvSome t (by omega)
      · rw [stepRead_task_other c t u (Ne.symm hut)] at h3 ⊢
        exact hinv.recvSome u h3
    · intro u h4
      by_cases hut : t = u
      · subst hut
        rw [stepRead_task_same] at h4
        simp at h4
      · exfalso
        rw [stepRead_task_other c t u (Ne.symm hut)] at h4
        exact lock_unique hinv (Ne.symm hut) (by omega) (by omega) (by omega) (by omega)
    · intro u h5
      by_cases hut : t = u
      · subst hut
        rw [stepRead_task_same]
        show c.oauthToken = (c.task t).received
        exact hinv.tokOwn t hpc
      · rw [stepRead_task_other c t u (Ne.symm hut)] at h5 ⊢
        exact hinv.resOwn u h5
    · rw [stepRead_trace]
      exact hinv.traceAlt
    · intro u
      rw [stepRead_trace]
      by_cases hut : t = u
      · subst hut
        rw [stepRead_task_same]
        constructor
        · intro _
          exact ⟨by simp, by simp⟩
        · intro _
          exact (hinv.openIff t).mpr ⟨by omega, by omega⟩
      · rw [stepRead_task_other c t u (Ne.symm hut)]
        exact hinv.openIff u
  | release t hpc =>
    have hlock : c.lock = some t := hinv.lockHeld t (by omega) (by omega)
    have hopen : openTail c.trace = some t := (hinv.openIff t).mpr ⟨by omega, by omega⟩
    have happ := alternates_append_exited t c.trace hinv.traceAlt hopen
    refine ⟨?_, ?_, ?_, ?_, ?_, ?_, ?_⟩
    · intro u h1 h5
      exfalso
      by_cases hut : t = u
      · subst hut
        rw [stepRelease_task_same] at h5
        simp at h5
      · rw [stepRelease_task_other c t u (Ne.symm hut)] at h1 h5
        exact lock_unique hinv (Ne.symm hut) (by omega) (by omega) h1 h5
    · intro u
      by_cases hut : t = u
      · subst hut
        rw [stepRelease_task_same]
      · rw [stepRelease_task_other c t u (Ne.symm hut)]
        exact hinv.pcLe u
    · intro u h3
      by_cases hut : t = u
      · subst hut
        rw [stepRelease_task_same]
        show (c.task t).received ≠ none
        exact hinv.recvSome t (by omega)
      · rw [stepRelease_task_other c t u (Ne.symm hut)] at h3 ⊢
        exact hinv.recvSome u h3
    · intro u h4
      by_cases hut : t = u
      · subst hut
        rw [stepRelease_task_same] at h4
        simp at h4
      · exfalso
        rw [stepRelease_task_other c t u (Ne.symm hut)] at h4
        exact lock_unique hinv (Ne.symm hut) (by omega) (by omega) (by omega) (by omega)
    · intro u h5
      by_cases hut : t = u
      · subst hut
        rw [stepRelease_task_same]
        show (c.task t).result = (c.task t).received
        exact hinv.resOwn t (by omega)
      · rw [stepRelease_task_other c t u (Ne.symm hut)] at h5 ⊢
        exact hinv.resOwn u h5
    · rw [stepRelease_trace]
      exact happ.1
    · intro u
      rw [stepRelease_trace, happ.2]
      by_cases hut : t = u
      · subst hut
        rw [stepRelease_task_same]
        constructor
        · intro h
          simp at h
        · intro h2
          exfalso
          have : ({ c.task t with pc := 6 } : TaskSt).pc = 6 := rfl
          omega
      · rw [stepRelease_task_other c t u (Ne.symm hut)]
        constructor
        · intro h
          simp at h
        · intro h2
          exfalso
          exact lock_unique hinv (Ne.symm hut) (by omega) (by omega) (by omega) (by omega)

theorem sysInv_init (rs : List String) (tok0 : Option String) :
    SysInv (initConfig rs tok0) := by
  refine ⟨?_, ?_, ?_, ?_, ?_, ?_, ?_⟩
  · intro u h1 h5
    cases u <;> simp [initConfig, Config.task] at h1
  · intro u
    cases u <;> simp [initConfig, Config.task]
  · intro u h3
    cases u <;> simp [initConfig, Config.task] at h3
  · intro u h4
    cases u <;> simp [initConfig, Config.task] at h4
  · intro u h5
    cases u <;> simp [initConfig, Config.task] at h5
  · rfl
  · intro u
    constructor
    · intro h
      simp [initConfig, openTail] at h
    · intro h2
      exfalso
      cases u <;> simp [initConfig, Config.task] at h2
  
theorem sysInv_reach {rs : List String} {tok0 : Option String} {c : Config}
    (h : Reach (initConfig rs tok0) c) : SysInv c := by
  induction h with
  | refl => exact sysInv_init rs tok0
  | tail hr hs ih => exact sysInv_step ih hs

/-- C1: in every interleaving of two concurrent login attempts on one
adapter instance, entered via the async scoped session, the attempts are
fully serialized by the per-instance lock: in the event trace, any later
reset (the session reset in the second attempt's scope entry) is
preceded by the scope exit of the attempt that reset earlier; and every
attempt that has read its final access token (program counter at least 5)
holds exactly the token from its own token-exchange response — the token
its own POST received — never the other attempt's. -/
theorem concurrent_logins_serialized (rs : List String) (tok0 : Option String)
    (c : Config) (h : Reach (initConfig rs tok0) c) :
    (∀ i j a b, i < j →
      c.trace.get? i = some (Ev.reset a) → c.trace.get? j = some (Ev.reset b) →
      ∃ k, i < k ∧ k < j ∧ c.trace.get? k = some (Ev.exited a)) ∧
    (∀ t : Bool, 5 ≤ (c.task t).pc →
      ∃ r, (c.task t).received = some r ∧ (c.task t).result = some r) := by
  have hinv := sysInv_reach h
  refine ⟨alternates_resets_separated c.trace hinv.traceAlt, ?_⟩
  intro t h5
  have hres := hinv.resOwn t h5
  have hrecv := hinv.recvSome t (by omega)
  rcases hr : (c.task t).received with _ | r
  · rw [hr] at hrecv
    exact absurd rfl hrecv
  · exact ⟨r, rfl, by rw [hres, hr]⟩

theorem cw12_reach : Reach cw0 cw12 :=
  Reach.tail
    (Reach.tail
      (Reach.tail
        (Reach.tail
          (Reach.tail
            (Reach.tail
              (Reach.tail
                (Reach.tail
                  (Reach.tail
                    (Reach.tail
                      (Reach.tail
                        (Reach.tail Reach.refl
                          (Step.acquire cw0 false rfl rfl))
                        (Step.reset cw1 false rfl))
                      (Step.post cw2 false "tokA" ["tokB"] rfl rfl))
                    (Step.parse cw3 false "tokA" rfl rfl))
                  (Step.read cw4 false rfl))
                (Step.release cw5 false rfl))
              (Step.acquire cw6 true rfl rfl))
            (Step.reset cw7 true rfl))
          (Step.post cw8 true "tokB" [] rfl rfl))
        (Step.parse cw9 true "tokB" rfl rfl))
      (Step.read cw10 true rfl))
    (Step.release cw11 true rfl)

/-- C1, witness: a complete serialized run of two attempts, the first
receiving token "tokA" and the second "tokB", starting from a stale
leftover access token; the serialization and own-token properties hold
at the final configuration. -/
theorem concurrent_logins_serialized_witness :
    (∀ i j a b, i < j →
      cw12.trace.get? i = some (Ev.reset a) → cw12.trace.get? j = some (Ev.reset b) →
      ∃ k, i < k ∧ k < j ∧ cw12.trace.get? k = some (Ev.exited a)) ∧
    (∀ t : Bool, 5 ≤ (cw12.task t).pc →
      ∃ r, (cw12.task t).received = some r ∧ (cw12.task t).result = some r) :=
  concurrent_logins_serialized ["tokA", "tokB"] (some "stale") cw12 cw12_reach
